import Mathlib

/-!
# vmmc_spindle: the cosine-squared pair potential and the demo drivers

A shallow embedding of `CosSquared::computePairEnergy`
(`demos/src/.ipynb_checkpoints/CosSquared-checkpoint.cpp`, called `CosSquared.cpp` below) and
of the parameter set-up and main loop of the two demo drivers
`demos/.ipynb_checkpoints/cos_squarium-checkpoint.cpp` (called `cos_squarium.cpp` below) and
`demos/lennard_jonesium.cpp`.

Number model. The C++ `double` is idealised as an arbitrary linearly ordered field `α` with a
floor function (`ℚ` and `ℝ` are instances).  The `<cmath>` functions the sources call are
passed in as a record, so every definition below is executable over `ℚ`; theorems that need
the analytic meaning of `cos`, `sqrt`, `pow` and `M_PI` instantiate the record with the real
functions.  A floating-point division whose divisor is zero yields no number (`inf`/`NaN` in
IEEE arithmetic); it is modelled by `none`, and `none` stands for nothing else: rounding,
overflow and underflow of the `double` are not modelled, a result `some x` is the value in
exact arithmetic.
-/

set_option linter.unusedVariables false

namespace VmmcSpindle

/-- The `<cmath>` functions and the constant `M_PI` used by the sources. -/
structure CMath (α : Type) where
  /-- The function `sqrt`. -/
  sqrt : α → α
  /-- The function `cos`. -/
  cos : α → α
  /-- The function `std::pow`. -/
  pow : α → α → α
  /-- The constant `M_PI`. -/
  M_PI : α

/-- Floating-point division `a / b`: `none` exactly when the divisor is zero, the quotient in
exact arithmetic otherwise. -/
def fdiv {α : Type} [LinearOrderedField α] (a b : α) : Option α :=
  if b = 0 then none else some (a / b)

/-- Modelled from the spec: the class `Box` (`Box.h` is not among the sources). Per the spec
a box is a per-axis length vector, its dimension being the number of axes. -/
structure Box (α : Type) where
  /-- The per-axis box lengths (`std::vector<double> boxSize`). -/
  boxSize : List α

/-- The dimension of the box: the number of axes of `boxSize`. -/
def Box.dimension {α : Type} (box : Box α) : Nat := box.boxSize.length

/-- Modelled from the spec: what `Box::minimumImage` (absent from the sources) does to one
component of a separation vector on an axis of length `L`: it reduces the component by a
whole number of box lengths into the range `[-L/2, L/2)`. -/
def minimumImageComponent {α : Type} [LinearOrderedField α] [FloorRing α] (L x : α) : α :=
  x - L * ((⌊(x + L / 2) / L⌋ : ℤ) : α)

/-- Modelled from the spec: `Box::minimumImage(separation)` (absent from the sources) reduces
each axis component of the separation vector into `[-L_i/2, L_i/2)`. -/
def Box.minimumImage {α : Type} [LinearOrderedField α] [FloorRing α]
    (box : Box α) (separation : List α) : List α :=
  List.zipWith minimumImageComponent box.boxSize separation

/-- The data members of `CosSquared` that `computePairEnergy` reads; they are inherited from
the base class `Model` (`Model.h` is not among the sources), whose constructor receives
`box_`, `interactionEnergy_` and `interactionRange_`. The member `squaredCutOffDistance` is
set by that absent constructor and is therefore kept as a field of its own. -/
structure CosSquared (α : Type) where
  /-- The simulation box. -/
  box : Box α
  /-- The potential energy scale (in units of kBT). -/
  interactionEnergy : α
  /-- The potential cut-off distance. -/
  interactionRange : α
  /-- The member `squaredCutOffDistance`. -/
  squaredCutOffDistance : α

namespace CosSquared

variable {α : Type} [LinearOrderedField α] [FloorRing α]

/-- Lines 45-53 of `CosSquared.cpp`: the separation vector `sep[i] = position1[i] -
position2[i]` for `i < box.dimension`, after `box.minimumImage(sep)`. -/
def sep (m : CosSquared α) (position1 position2 : Nat → α) : List α :=
  m.box.minimumImage ((List.range m.box.dimension).map fun i => position1 i - position2 i)

/-- Lines 55-59 of `CosSquared.cpp`: `normSqd`, accumulated from `0` by
`normSqd += sep[i]*sep[i]`. -/
def normSqd (m : CosSquared α) (position1 position2 : Nat → α) : α :=
  (m.sep position1 position2).foldl (fun acc s => acc + s * s) 0

/-- Lines 74, 81 and 88 of `CosSquared.cpp`: `cos(M_PI*(r-1)/(2*(interactionRange-1)))`. -/
def cosineterm (lib : CMath α) (m : CosSquared α) (r : α) : Option α :=
  (fdiv (lib.M_PI * (r - 1)) (2 * (m.interactionRange - 1))).map lib.cos

/-- The function `CosSquared::computePairEnergy` (anisotropic signature; the isotropic one only
drops the two orientation arguments, which the body never reads). -/
def computePairEnergy (lib : CMath α) (m : CosSquared α)
    (particle1 : Nat) (position1 : Nat → α) (type1 : Nat) (orientation1 : Nat → α)
    (particle2 : Nat) (position2 : Nat → α) (type2 : Nat) (orientation2 : Nat → α) :
    Option α :=
  let normSqd := m.normSqd position1 position2
  if normSqd < 1 then
    (fdiv 1 normSqd).map fun r2Inv =>
      let r6Inv := r2Inv * r2Inv * r2Inv
      m.interactionEnergy * ((r6Inv * r6Inv) - 2 * r6Inv + 1)
  else if normSqd < m.squaredCutOffDistance ∧ type1 = type2 ∧ type1 = 0 then
    let r := lib.sqrt normSqd
    (cosineterm lib m r).map fun c => -m.interactionEnergy * c * c
  else if normSqd < m.squaredCutOffDistance ∧ type1 = type2 ∧ type1 = 1 then
    let r := lib.sqrt normSqd
    (cosineterm lib m r).map fun c => -5 * m.interactionEnergy * c * c
  else if normSqd < m.squaredCutOffDistance * 2 ∧ type1 ≠ type2 then
    let r := lib.sqrt normSqd
    (cosineterm lib m r).map fun c => -m.interactionEnergy * c * c
  else some 0

end CosSquared

/-- Modelled from the spec: the class `vmmc::VMMC` (`VMMC.h` is not among the sources),
reduced to what the sweep report of the drivers depends on, the number of elementary Monte
Carlo moves executed so far. -/
structure VMMC where
  /-- The number of elementary moves executed so far. -/
  nMoves : Nat
  deriving DecidableEq, Repr

/-- Modelled from the spec: `vmmc += n` is the counted advance call `advance(n)`, which runs
the elementary-move state machine `n` times. -/
def VMMC.advance (vmmc : VMMC) (n : Nat) : VMMC := ⟨vmmc.nMoves + n⟩

/-- One line of a driver's report: the sweep count it prints, together with the number of
elementary moves the engine has executed when the line is printed. -/
structure Report where
  /-- The printed value `(double) (i+1)*1000`. -/
  sweeps : Nat
  /-- The elementary moves executed so far. -/
  nMoves : Nat
  deriving DecidableEq, Repr

/-! ### The driver `cos_squarium.cpp` -/

namespace cos_squarium

/-- Line 33: `unsigned int dimension = 3`. -/
def dimension : Nat := 3
/-- Line 34: `unsigned int nParticles = 1000`. -/
def nParticles : Nat := 1000
/-- Line 37: `double interactionEnergy = 2.4`. -/
def interactionEnergy (α : Type) [LinearOrderedField α] : α := 2.4
/-- Line 38: `double interactionRange = 2.`. -/
def interactionRange (α : Type) [LinearOrderedField α] : α := 2
/-- Line 39: `double density = 0.01`. -/
def density (α : Type) [LinearOrderedField α] : α := 0.01

/-- Lines 51-52: the base length of the simulation box. -/
def baseLength {α : Type} [LinearOrderedField α] (lib : CMath α) : α :=
  if dimension = 2 then lib.pow (((nParticles : α) * lib.M_PI) / (4.0 * density α)) (1.0 / 2.0)
  else lib.pow (((nParticles : α) * lib.M_PI) / (6.0 * density α)) (1.0 / 3.0)

/-- Lines 54-56: `boxSize.push_back(baseLength)` for `i < dimension`. -/
def boxSize {α : Type} [LinearOrderedField α] (lib : CMath α) : List α :=
  (List.range dimension).foldl (fun boxSize _ => boxSize ++ [baseLength lib]) []

/-- Lines 143-242, the body of the main loop for the loop index `i`: `vmmc += 100*nParticles`
(in `unsigned int` arithmetic), then the report `sweeps = (double) (i+1)*1000`. -/
def iteration (state : VMMC × List Report) (i : Nat) : VMMC × List Report :=
  let vmmc := state.1.advance (100 * nParticles % 2 ^ 32)
  (vmmc, state.2 ++ [⟨(i + 1) * 1000, vmmc.nMoves⟩])

/-- Lines 143-242: the main loop `for (unsigned int i=0;i<1000;i++)`. -/
def simulation (vmmc : VMMC) : VMMC × List Report :=
  (List.range 1000).foldl iteration (vmmc, [])

end cos_squarium

/-! ### The driver `demos/lennard_jonesium.cpp` -/

namespace lennard_jonesium

/-- Line 33: `unsigned int dimension = 3`. -/
def dimension : Nat := 3
/-- Line 34: `unsigned int nParticles = 1000`. -/
def nParticles : Nat := 1000
/-- Line 35: `double interactionEnergy = 2`. -/
def interactionEnergy (α : Type) [LinearOrderedField α] : α := 2
/-- Line 36: `double interactionRange = 2.5`. -/
def interactionRange (α : Type) [LinearOrderedField α] : α := 2.5
/-- Line 37: `double density = 0.05`. -/
def density (α : Type) [LinearOrderedField α] : α := 0.05

/-- Lines 52-53: the base length of the simulation box. -/
def baseLength {α : Type} [LinearOrderedField α] (lib : CMath α) : α :=
  if dimension = 2 then lib.pow (((nParticles : α) * lib.M_PI) / (4.0 * density α)) (1.0 / 2.0)
  else lib.pow (((nParticles : α) * lib.M_PI) / (6.0 * density α)) (1.0 / 3.0)

/-- Lines 55-57: `boxSize.push_back(baseLength)` for `i < dimension`. -/
def boxSize {α : Type} [LinearOrderedField α] (lib : CMath α) : List α :=
  (List.range dimension).foldl (fun boxSize _ => boxSize ++ [baseLength lib]) []

/-- Lines 143-154, the body of the main loop for the loop index `i`: `vmmc += 1000*nParticles`
(in `unsigned int` arithmetic), then the report `sweeps = (double) (i+1)*1000`. -/
def iteration (state : VMMC × List Report) (i : Nat) : VMMC × List Report :=
  let vmmc := state.1.advance (1000 * nParticles % 2 ^ 32)
  (vmmc, state.2 ++ [⟨(i + 1) * 1000, vmmc.nMoves⟩])

/-- Lines 143-154: the main loop `for (unsigned int i=0;i<1000;i++)`. -/
def simulation (vmmc : VMMC) : VMMC × List Report :=
  (List.range 1000).foldl iteration (vmmc, [])

end lennard_jonesium

/-! ## Helper lemmas -/

section Lemmas

variable {α : Type} [LinearOrderedField α] [FloorRing α]

theorem minimumImageComponent_lower {L : α} (hL : 0 < L) (x : α) :
    -(L / 2) ≤ minimumImageComponent L x := by
  unfold minimumImageComponent
  have h := Int.floor_le ((x + L / 2) / L)
  rw [le_div_iff₀ hL] at h
  linarith

theorem minimumImageComponent_upper {L : α} (hL : 0 < L) (x : α) :
    minimumImageComponent L x < L / 2 := by
  unfold minimumImageComponent
  have h := Int.lt_floor_add_one ((x + L / 2) / L)
  rw [div_lt_iff₀ hL] at h
  linarith

theorem minimumImageComponent_add_int_mul (L x : α) (k : ℤ) :
    minimumImageComponent L (x + k * L) = minimumImageComponent L x := by
  rcases eq_or_ne L 0 with h0 | h0
  · subst h0; simp [minimumImageComponent]
  · unfold minimumImageComponent
    have e : (x + k * L + L / 2) / L = (x + L / 2) / L + k := by
      field_simp; ring
    rw [e, Int.floor_add_int]
    push_cast
    ring

/-- Two numbers in `[-L/2, L/2)` that differ by a whole number of box lengths are equal. -/
theorem eq_of_mem_of_sub_eq_int_mul {β : Type} [LinearOrderedField β] {L a b : β} (hL : 0 < L)
    (ha₁ : -(L / 2) ≤ a) (ha₂ : a < L / 2) (hb₁ : -(L / 2) ≤ b) (hb₂ : b < L / 2)
    (k : ℤ) (h : a - b = k * L) : a = b := by
  have hk₁ : ((k : ℤ) : β) * L < 1 * L := by linarith
  have hk₂ : (-1 : β) * L < (k : β) * L := by linarith
  have h₁ : (k : β) < 1 := lt_of_mul_lt_mul_right hk₁ hL.le
  have h₂ : (-1 : β) < (k : β) := lt_of_mul_lt_mul_right hk₂ hL.le
  have h₁' : k < 1 := by exact_mod_cast h₁
  have h₂' : -1 < k := by exact_mod_cast h₂
  have hk : k = 0 := by omega
  subst hk
  simp at h
  linarith

theorem minimumImageComponent_of_mem {L x : α} (hL : 0 < L)
    (h₁ : -(L / 2) ≤ x) (h₂ : x < L / 2) : minimumImageComponent L x = x := by
  refine eq_of_mem_of_sub_eq_int_mul hL (minimumImageComponent_lower hL x)
    (minimumImageComponent_upper hL x) h₁ h₂ (-⌊(x + L / 2) / L⌋) ?_
  unfold minimumImageComponent
  push_cast
  ring

/-- The reduced component of `-x` has the same square as the reduced component of `x`: they
are opposite, except on the edge `-L/2`, where they coincide. -/
theorem minimumImageComponent_neg_mul_self {L : α} (hL : 0 < L) (x : α) :
    minimumImageComponent L (-x) * minimumImageComponent L (-x) =
      minimumImageComponent L x * minimumImageComponent L x := by
  have hl := minimumImageComponent_lower hL x
  have hu := minimumImageComponent_upper hL x
  have hl' := minimumImageComponent_lower hL (-x)
  have hu' := minimumImageComponent_upper hL (-x)
  rcases eq_or_lt_of_le hl with he | hlt
  · -- on the edge: both reduce to `-L/2`
    have h : minimumImageComponent L (-x) = minimumImageComponent L x := by
      refine eq_of_mem_of_sub_eq_int_mul hL hl' hu' hl hu
        (-⌊(-x + L / 2) / L⌋ - ⌊(x + L / 2) / L⌋ + 1) ?_
      have e : minimumImageComponent L x = x - L * ((⌊(x + L / 2) / L⌋ : ℤ) : α) := rfl
      have e' : minimumImageComponent L (-x) = -x - L * ((⌊(-x + L / 2) / L⌋ : ℤ) : α) := rfl
      push_cast
      rw [e'] at *
      rw [e] at he ⊢
      linear_combination (2 : α) * he
    rw [h]
  · have h : minimumImageComponent L (-x) = -minimumImageComponent L x := by
      refine eq_of_mem_of_sub_eq_int_mul hL hl' hu' (by linarith) (by linarith)
        (-⌊(-x + L / 2) / L⌋ - ⌊(x + L / 2) / L⌋) ?_
      unfold minimumImageComponent
      push_cast
      ring
    rw [h]; ring

theorem foldl_add_mul_self {β : Type} [LinearOrderedField β] (l : List β) (a : β) :
    l.foldl (fun acc s => acc + s * s) a = a + (l.map fun s => s * s).sum := by
  induction l generalizing a with
  | nil => simp
  | cons x xs ih => simp [List.foldl_cons, ih, add_assoc]

/-- The minimum-image separation vector, component by component. -/
theorem CosSquared.sep_eq_map (m : CosSquared α) (p1 p2 : Nat → α) :
    m.sep p1 p2 = (List.range m.box.dimension).map fun i =>
      minimumImageComponent (m.box.boxSize.getD i 0) (p1 i - p2 i) := by
  unfold CosSquared.sep Box.minimumImage Box.dimension
  apply List.ext_getElem
  · simp
  · intro j h₁ h₂
    simp only [List.length_zipWith, List.length_map, List.length_range, min_self] at h₁
    simp [List.getElem?_eq_getElem h₁]

theorem CosSquared.normSqd_eq_sum (m : CosSquared α) (p1 p2 : Nat → α) :
    m.normSqd p1 p2 = ((List.range m.box.dimension).map fun i =>
      minimumImageComponent (m.box.boxSize.getD i 0) (p1 i - p2 i) *
        minimumImageComponent (m.box.boxSize.getD i 0) (p1 i - p2 i)).sum := by
  unfold CosSquared.normSqd
  rw [foldl_add_mul_self, m.sep_eq_map, List.map_map, zero_add]
  rfl

theorem CosSquared.normSqd_nonneg (m : CosSquared α) (p1 p2 : Nat → α) :
    0 ≤ m.normSqd p1 p2 := by
  rw [m.normSqd_eq_sum]
  apply List.sum_nonneg
  intro x hx
  simp only [List.mem_map] at hx
  obtain ⟨i, -, rfl⟩ := hx
  exact mul_self_nonneg _

/-- The squared norm is symmetric in the two positions (all box lengths positive). -/
theorem CosSquared.normSqd_comm (m : CosSquared α) (hbox : ∀ L ∈ m.box.boxSize, 0 < L)
    (p1 p2 : Nat → α) : m.normSqd p1 p2 = m.normSqd p2 p1 := by
  rw [m.normSqd_eq_sum, m.normSqd_eq_sum]
  congr 1
  apply List.map_congr_left
  intro i hi
  have hi' : i < m.box.boxSize.length := by simpa [Box.dimension] using hi
  have hL : 0 < m.box.boxSize.getD i 0 := by
    rw [List.getD_eq_getElem _ _ hi']
    exact hbox _ (List.getElem_mem _)
  have e : p2 i - p1 i = -(p1 i - p2 i) := by ring
  rw [e, minimumImageComponent_neg_mul_self hL]

/-- Every component of the minimum-image separation lies in `[-L_i/2, L_i/2)`. -/
theorem forall₂_minimumImage (bs xs : List α) (hbs : ∀ L ∈ bs, 0 < L)
    (hlen : xs.length = bs.length) :
    List.Forall₂ (fun L s => -(L / 2) ≤ s ∧ s < L / 2) bs
      (List.zipWith minimumImageComponent bs xs) := by
  induction bs generalizing xs with
  | nil => simp
  | cons L bs ih =>
    cases xs with
    | nil => simp at hlen
    | cons x xs =>
      simp only [List.zipWith_cons_cons, List.forall₂_cons]
      have hL : 0 < L := hbs L (List.mem_cons_self _ _)
      refine ⟨⟨minimumImageComponent_lower hL x, minimumImageComponent_upper hL x⟩, ?_⟩
      exact ih xs (fun L' h' => hbs L' (List.mem_cons_of_mem _ h')) (by simpa using hlen)

/-- The squared norm of a minimum-image separation is at most the sum of the `(L_i/2)^2`. -/
theorem sum_mul_self_minimumImage_le (bs xs : List α) (hbs : ∀ L ∈ bs, 0 < L) :
    ((List.zipWith minimumImageComponent bs xs).map fun s => s * s).sum ≤
      (bs.map fun L => (L / 2) ^ 2).sum := by
  induction bs generalizing xs with
  | nil => simp
  | cons L bs ih =>
    have hbs' : ∀ L' ∈ bs, 0 < L' := fun L' h' => hbs L' (List.mem_cons_of_mem _ h')
    cases xs with
    | nil =>
      simp only [List.zipWith_nil_right, List.map_nil, List.sum_nil]
      apply List.sum_nonneg
      intro x hx
      simp only [List.mem_map] at hx
      obtain ⟨y, -, rfl⟩ := hx
      positivity
    | cons x xs =>
      simp only [List.zipWith_cons_cons, List.map_cons, List.sum_cons]
      have hL : 0 < L := hbs L (List.mem_cons_self _ _)
      have h₁ := minimumImageComponent_lower hL x
      have h₂ := minimumImageComponent_upper hL x
      have h₃ : minimumImageComponent L x * minimumImageComponent L x ≤ (L / 2) ^ 2 := by
        rw [← sq]
        exact sq_le_sq' h₁ h₂.le
      exact add_le_add h₃ (ih xs hbs')

/-- A sum of squares is positive exactly when one of the numbers is not zero. -/
theorem sum_mul_self_pos_iff {β : Type} [LinearOrderedField β] (l : List β) :
    0 < (l.map fun s => s * s).sum ↔ ∃ s ∈ l, s ≠ 0 := by
  induction l with
  | nil => simp
  | cons x xs ih =>
    have hnn : 0 ≤ (xs.map fun s => s * s).sum := by
      apply List.sum_nonneg
      intro y hy
      simp only [List.mem_map] at hy
      obtain ⟨z, -, rfl⟩ := hy
      exact mul_self_nonneg _
    simp only [List.map_cons, List.sum_cons, List.mem_cons, exists_eq_or_imp]
    constructor
    · intro h
      by_cases hx : x = 0
      · right
        apply ih.mp
        simpa [hx] using h
      · exact Or.inl hx
    · rintro (hx | hs)
      · have : 0 < x * x := mul_self_pos.mpr hx
        linarith
      · have := ih.mpr hs
        have := mul_self_nonneg x
        linarith

theorem CosSquared.normSqd_pos_iff (m : CosSquared α) (p1 p2 : Nat → α) :
    0 < m.normSqd p1 p2 ↔ ∃ s ∈ m.sep p1 p2, s ≠ 0 := by
  unfold CosSquared.normSqd
  rw [foldl_add_mul_self, zero_add]
  exact sum_mul_self_pos_iff _

theorem minimumImageComponent_zero (L : α) : minimumImageComponent L 0 = 0 := by
  rcases eq_or_ne L 0 with h0 | h0
  · subst h0; simp [minimumImageComponent]
  · have e : (0 + L / 2) / L = (1 / 2 : α) := by field_simp; ring
    have hf : ⌊(1 / 2 : α)⌋ = 0 := by
      rw [Int.floor_eq_iff]
      constructor <;> norm_num
    unfold minimumImageComponent
    rw [e, hf]
    simp

/-- Coincident positions have squared distance zero. -/
theorem CosSquared.normSqd_self (m : CosSquared α) (p : Nat → α) : m.normSqd p p = 0 := by
  rw [m.normSqd_eq_sum]
  simp [minimumImageComponent_zero]

/-- The separation vector only reads the first `box.dimension` entries of the positions. -/
theorem CosSquared.sep_congr (m : CosSquared α) {p1 p1' p2 p2' : Nat → α}
    (h₁ : ∀ i < m.box.dimension, p1 i = p1' i) (h₂ : ∀ i < m.box.dimension, p2 i = p2' i) :
    m.sep p1 p2 = m.sep p1' p2' := by
  unfold CosSquared.sep
  congr 1
  apply List.map_congr_left
  intro i hi
  rw [h₁ i (List.mem_range.mp hi), h₂ i (List.mem_range.mp hi)]

/-- On the attractive branch for two particles of type 0 the code returns
`-interactionEnergy * cos(pi*(r-1)/(2*(interactionRange-1)))^2` with `r = sqrt(normSqd)`. -/
theorem CosSquared.computePairEnergy_type0 (m : CosSquared ℝ) (hR : 1 < m.interactionRange)
    (hcut : m.squaredCutOffDistance = m.interactionRange ^ 2)
    (particle1 : Nat) (position1 orientation1 : Nat → ℝ)
    (particle2 : Nat) (position2 orientation2 : Nat → ℝ)
    (h₁ : 1 ≤ Real.sqrt (m.normSqd position1 position2))
    (h₂ : Real.sqrt (m.normSqd position1 position2) < m.interactionRange) :
    m.computePairEnergy ⟨Real.sqrt, Real.cos, Real.rpow, Real.pi⟩
        particle1 position1 0 orientation1 particle2 position2 0 orientation2 =
      some (-m.interactionEnergy *
        Real.cos (Real.pi * (Real.sqrt (m.normSqd position1 position2) - 1) /
          (2 * (m.interactionRange - 1))) ^ 2) := by
  have e1 : ¬ m.normSqd position1 position2 < 1 :=
    not_lt.mpr (Real.one_le_sqrt.mp h₁)
  have e2 : m.normSqd position1 position2 < m.squaredCutOffDistance := by
    rw [hcut]
    exact (Real.sqrt_lt' (by linarith)).mp h₂
  have e3 : 2 * (m.interactionRange - 1) ≠ 0 := by
    have : 0 < m.interactionRange - 1 := by linarith
    positivity
  simp only [CosSquared.computePairEnergy, e1, e2, if_false, true_and, if_true, cosineterm, fdiv,
    e3, Option.map_some']
  congr 1
  ring

/-- The state of the `cos_squarium` main loop after `n` iterations: `n*100*nParticles` moves
have been executed and the `i`-th report printed `(i+1)*1000` sweeps. -/
theorem cos_squarium.foldl_iteration_cos (n : Nat) :
    (List.range n).foldl cos_squarium.iteration (⟨0⟩, []) =
      (⟨n * (100 * cos_squarium.nParticles)⟩,
        (List.range n).map fun i => ⟨(i + 1) * 1000, (i + 1) * (100 * cos_squarium.nParticles)⟩) := by
  induction n with
  | zero => simp
  | succ n ih =>
    rw [List.range_succ, List.foldl_append, ih]
    simp [cos_squarium.iteration, VMMC.advance, cos_squarium.nParticles]
    ring

/-- The state of the `lennard_jonesium` main loop after `n` iterations: `n*1000*nParticles`
moves have been executed and the `i`-th report printed `(i+1)*1000` sweeps. -/
theorem lennard_jonesium.foldl_iteration_lj (n : Nat) :
    (List.range n).foldl lennard_jonesium.iteration (⟨0⟩, []) =
      (⟨n * (1000 * lennard_jonesium.nParticles)⟩,
        (List.range n).map fun i =>
          ⟨(i + 1) * 1000, (i + 1) * (1000 * lennard_jonesium.nParticles)⟩) := by
  induction n with
  | zero => simp
  | succ n ih =>
    rw [List.range_succ, List.foldl_append, ih]
    simp [lennard_jonesium.iteration, VMMC.advance, lennard_jonesium.nParticles]
    ring

/-- The cube root of a number that is at least `c^3` is at least `c`. -/
theorem le_rpow_third {c x : ℝ} (hc : 0 ≤ c) (h : c ^ 3 ≤ x) : c ≤ Real.rpow x (1 / 3) := by
  have h3 : Real.rpow (c ^ 3) (1 / 3) = c := by
    have := Real.pow_rpow_inv_natCast hc (n := 3) (by norm_num)
    simpa using this
  calc c = Real.rpow (c ^ 3) (1 / 3) := h3.symm
    _ ≤ Real.rpow x (1 / 3) := Real.rpow_le_rpow (by positivity) h (by norm_num)

end Lemmas

/-! ## The claims -/

section Claims

open CosSquared

variable {α : Type} [LinearOrderedField α] [FloorRing α]

/-- C1. `CosSquared::computePairEnergy` is symmetric under swapping the two particles: for all
indices, positions, types and orientations the call with the arguments of particle 1 and
particle 2 exchanged returns the same result, in a box whose lengths are positive, where every
component of the minimum-image separation lies in `[-L_i/2, L_i/2)`. -/
theorem computePairEnergy_symm (lib : CMath α) (m : CosSquared α)
    (hbox : ∀ L ∈ m.box.boxSize, 0 < L)
    (particle1 : Nat) (position1 : Nat → α) (type1 : Nat) (orientation1 : Nat → α)
    (particle2 : Nat) (position2 : Nat → α) (type2 : Nat) (orientation2 : Nat → α) :
    computePairEnergy lib m particle1 position1 type1 orientation1
        particle2 position2 type2 orientation2 =
      computePairEnergy lib m particle2 position2 type2 orientation2
        particle1 position1 type1 orientation1 ∧
    List.Forall₂ (fun L s => -(L / 2) ≤ s ∧ s < L / 2) m.box.boxSize
      (m.sep position1 position2) := by
  refine ⟨?_, forall₂_minimumImage _ _ hbox (by simp [Box.dimension])⟩
  simp only [computePairEnergy, m.normSqd_comm hbox position2 position1]
  by_cases h : type1 = type2
  · subst h; rfl
  · simp [h, Ne.symm h]

/-- Witness of C1: two particles of different types in a cubic box of length 10. -/
theorem computePairEnergy_symm_witness :
    (∀ L ∈ (⟨⟨[10, 10, 10]⟩, 1, 2, 4⟩ : CosSquared ℚ).box.boxSize, 0 < L) ∧
    (computePairEnergy ⟨id, id, fun x _ => x, 3⟩ (⟨⟨[10, 10, 10]⟩, 1, 2, 4⟩ : CosSquared ℚ)
        0 (fun _ => 9) 0 (fun _ => 0) 1 (fun _ => 1 / 2) 1 (fun _ => 0) =
      computePairEnergy ⟨id, id, fun x _ => x, 3⟩ (⟨⟨[10, 10, 10]⟩, 1, 2, 4⟩ : CosSquared ℚ)
        1 (fun _ => 1 / 2) 1 (fun _ => 0) 0 (fun _ => 9) 0 (fun _ => 0) ∧
    List.Forall₂ (fun L s => -(L / 2) ≤ s ∧ s < L / 2)
      (⟨⟨[10, 10, 10]⟩, 1, 2, 4⟩ : CosSquared ℚ).box.boxSize
      ((⟨⟨[10, 10, 10]⟩, 1, 2, 4⟩ : CosSquared ℚ).sep (fun _ => 9) (fun _ => 1 / 2))) :=
  ⟨by simp, computePairEnergy_symm _ _ (by simp) _ _ _ _ _ _ _ _⟩

/-- C4. `CosSquared::computePairEnergy` is a pure function of the supplied positions and types:
for fixed model constants, two calls whose positions agree on the `box.dimension` coordinates
and whose types agree return the same result, whatever the particle indices and the
orientation vectors are. -/
theorem computePairEnergy_pure (lib : CMath α) (m : CosSquared α)
    (particle1 particle1' particle2 particle2' : Nat)
    (position1 position1' position2 position2' : Nat → α) (type1 type2 : Nat)
    (orientation1 orientation1' orientation2 orientation2' : Nat → α)
    (h₁ : ∀ i < m.box.dimension, position1 i = position1' i)
    (h₂ : ∀ i < m.box.dimension, position2 i = position2' i) :
    computePairEnergy lib m particle1 position1 type1 orientation1
        particle2 position2 type2 orientation2 =
      computePairEnergy lib m particle1' position1' type1 orientation1'
        particle2' position2' type2 orientation2' := by
  simp only [computePairEnergy, CosSquared.normSqd, m.sep_congr h₁ h₂]

/-- Witness of C4: the same two positions (given by two arrays that differ beyond the third
coordinate), other particle indices and other orientations. -/
theorem computePairEnergy_pure_witness :
    (∀ i < (⟨⟨[10, 10, 10]⟩, 1, 2, 4⟩ : CosSquared ℚ).box.dimension,
      (fun j => if j < 3 then (1 : ℚ) else 0) i = (fun _ => (1 : ℚ)) i) ∧
    computePairEnergy ⟨id, id, fun x _ => x, 3⟩ (⟨⟨[10, 10, 10]⟩, 1, 2, 4⟩ : CosSquared ℚ)
        0 (fun j => if j < 3 then (1 : ℚ) else 0) 0 (fun _ => 0) 1 (fun _ => 2) 0 (fun _ => 0) =
      computePairEnergy ⟨id, id, fun x _ => x, 3⟩ (⟨⟨[10, 10, 10]⟩, 1, 2, 4⟩ : CosSquared ℚ)
        7 (fun _ => 1) 0 (fun _ => 5) 8 (fun _ => 2) 0 (fun _ => 6) :=
  ⟨by intro i hi; simp only [Box.dimension, List.length] at hi; simp [hi],
    computePairEnergy_pure _ _ _ _ _ _ _ _ _ _ _ _ _ _ _ _
      (by intro i hi; simp only [Box.dimension, List.length] at hi; simp [hi])
      (fun _ _ => rfl)⟩

/-- C5. The pair energy respects the periodic box: in a box whose lengths are positive, every
component of the minimum-image separation lies in `[-L_i/2, L_i/2)`; for every axis `i` and
every integer `k`, replacing `position1` by `position1 + k*L_i` along axis `i` leaves the
result of `CosSquared::computePairEnergy` unchanged; and the squared distance `normSqd` it uses
is at most the sum over the axes of `(L_i/2)^2`. -/
theorem computePairEnergy_periodic (lib : CMath α) (m : CosSquared α)
    (hbox : ∀ L ∈ m.box.boxSize, 0 < L)
    (particle1 : Nat) (position1 : Nat → α) (type1 : Nat) (orientation1 : Nat → α)
    (particle2 : Nat) (position2 : Nat → α) (type2 : Nat) (orientation2 : Nat → α)
    (i : Nat) (hi : i < m.box.boxSize.length) (k : ℤ) :
    List.Forall₂ (fun L s => -(L / 2) ≤ s ∧ s < L / 2) m.box.boxSize
      (m.sep position1 position2) ∧
    computePairEnergy lib m particle1
        (Function.update position1 i (position1 i + k * m.box.boxSize.get ⟨i, hi⟩)) type1
        orientation1 particle2 position2 type2 orientation2 =
      computePairEnergy lib m particle1 position1 type1 orientation1
        particle2 position2 type2 orientation2 ∧
    m.normSqd position1 position2 ≤ (m.box.boxSize.map fun L => (L / 2) ^ 2).sum := by
  refine ⟨forall₂_minimumImage _ _ hbox (by simp [Box.dimension]), ?_, ?_⟩
  · have hs : m.sep (Function.update position1 i
        (position1 i + k * m.box.boxSize.get ⟨i, hi⟩)) position2 = m.sep position1 position2 := by
      rw [m.sep_eq_map, m.sep_eq_map]
      apply List.map_congr_left
      intro j _
      by_cases hj : j = i
      · subst hj
        have e : position1 j + (k : α) * m.box.boxSize.get ⟨j, hi⟩ - position2 j =
            position1 j - position2 j + (k : α) * m.box.boxSize.getD j 0 := by
          rw [List.getD_eq_getElem _ _ hi, List.get_eq_getElem]
          ring
        rw [Function.update_same, e, minimumImageComponent_add_int_mul]
      · rw [Function.update_noteq hj]
    simp only [computePairEnergy, CosSquared.normSqd, hs]
  · unfold CosSquared.normSqd
    rw [foldl_add_mul_self, zero_add]
    exact sum_mul_self_minimumImage_le _ _ hbox

/-- Witness of C5: particle 1 moved by three box lengths along the second axis. -/
theorem computePairEnergy_periodic_witness :
    (∀ L ∈ (⟨⟨[10, 10, 10]⟩, 1, 2, 4⟩ : CosSquared ℚ).box.boxSize, 0 < L) ∧
    (List.Forall₂ (fun L s => -(L / 2) ≤ s ∧ s < L / 2)
      (⟨⟨[10, 10, 10]⟩, 1, 2, 4⟩ : CosSquared ℚ).box.boxSize
      ((⟨⟨[10, 10, 10]⟩, 1, 2, 4⟩ : CosSquared ℚ).sep (fun _ => 9) (fun _ => 1 / 2)) ∧
    computePairEnergy ⟨id, id, fun x _ => x, 3⟩ (⟨⟨[10, 10, 10]⟩, 1, 2, 4⟩ : CosSquared ℚ) 0
        (Function.update (fun _ => 9) 1 ((fun _ => (9 : ℚ)) 1 + ((3 : ℤ) : ℚ) *
          (⟨⟨[10, 10, 10]⟩, 1, 2, 4⟩ : CosSquared ℚ).box.boxSize.get ⟨1, by decide⟩))
        0 (fun _ => 0) 1 (fun _ => 1 / 2) 0 (fun _ => 0) =
      computePairEnergy ⟨id, id, fun x _ => x, 3⟩ (⟨⟨[10, 10, 10]⟩, 1, 2, 4⟩ : CosSquared ℚ) 0
        (fun _ => 9) 0 (fun _ => 0) 1 (fun _ => 1 / 2) 0 (fun _ => 0) ∧
    (⟨⟨[10, 10, 10]⟩, 1, 2, 4⟩ : CosSquared ℚ).normSqd (fun _ => 9) (fun _ => 1 / 2) ≤
      ((⟨⟨[10, 10, 10]⟩, 1, 2, 4⟩ : CosSquared ℚ).box.boxSize.map fun L => (L / 2) ^ 2).sum) :=
  ⟨by simp, computePairEnergy_periodic _ _ (by simp) _ _ _ _ _ _ _ _ 1 (by decide) 3⟩

/-- C10. The repulsive core does not depend on the particle types and is never attractive: for
every pair of positions with `0 < normSqd < 1` and every pair of types,
`CosSquared::computePairEnergy` returns `interactionEnergy * (normSqd^-3 - 1)^2`, the value of
`interactionEnergy*((r6Inv*r6Inv) - 2*r6Inv + 1)` with `r6Inv = (1/normSqd)^3`, and this is
strictly positive when `interactionEnergy > 0`. -/
theorem computePairEnergy_core (lib : CMath α) (m : CosSquared α)
    (particle1 : Nat) (position1 : Nat → α) (type1 : Nat) (orientation1 : Nat → α)
    (particle2 : Nat) (position2 : Nat → α) (type2 : Nat) (orientation2 : Nat → α)
    (h₀ : 0 < m.normSqd position1 position2) (h₁ : m.normSqd position1 position2 < 1) :
    computePairEnergy lib m particle1 position1 type1 orientation1
        particle2 position2 type2 orientation2 =
      some (m.interactionEnergy * (m.normSqd position1 position2 ^ (-3 : ℤ) - 1) ^ 2) ∧
    m.interactionEnergy * (m.normSqd position1 position2 ^ (-3 : ℤ) - 1) ^ 2 =
      m.interactionEnergy *
        (((1 / m.normSqd position1 position2) ^ 3 * (1 / m.normSqd position1 position2) ^ 3) -
          2 * (1 / m.normSqd position1 position2) ^ 3 + 1) ∧
    (0 < m.interactionEnergy →
      0 < m.interactionEnergy * (m.normSqd position1 position2 ^ (-3 : ℤ) - 1) ^ 2) := by
  have hz : m.normSqd position1 position2 ^ (-3 : ℤ) = (1 / m.normSqd position1 position2) ^ 3 := by
    rw [zpow_neg, one_div, inv_pow]
    norm_cast
  refine ⟨?_, ?_, ?_⟩
  · simp only [computePairEnergy, h₁, if_true, fdiv, h₀.ne', if_false, Option.map_some', hz]
    congr 1
    ring
  · rw [hz]; ring
  · intro he
    have h3 : m.normSqd position1 position2 ^ 3 < 1 := pow_lt_one₀ h₀.le h₁ (by norm_num)
    have h3' : 0 < m.normSqd position1 position2 ^ 3 := pow_pos h₀ 3
    have h4 : 1 < (1 / m.normSqd position1 position2) ^ 3 := by
      rw [one_div, inv_pow]
      exact (one_lt_inv₀ h3').mpr h3
    rw [hz]
    have : 0 < (1 / m.normSqd position1 position2) ^ 3 - 1 := by linarith
    positivity

/-- Witness of C10: two particles at distance `1/2` along the first axis of a cubic box of
length 10, of types 0 and 1. -/
theorem computePairEnergy_core_witness :
    (0 < (⟨⟨[10, 10, 10]⟩, 1, 2, 4⟩ : CosSquared ℚ).normSqd
        (fun i => if i = 0 then 1 / 2 else 0) (fun _ => 0) ∧
      (⟨⟨[10, 10, 10]⟩, 1, 2, 4⟩ : CosSquared ℚ).normSqd
        (fun i => if i = 0 then 1 / 2 else 0) (fun _ => 0) < 1) ∧
    computePairEnergy ⟨id, id, fun x _ => x, 3⟩ (⟨⟨[10, 10, 10]⟩, 1, 2, 4⟩ : CosSquared ℚ)
        0 (fun i => if i = 0 then 1 / 2 else 0) 0 (fun _ => 0) 1 (fun _ => 0) 1 (fun _ => 0) =
      some 3969 := by
  have hn : (⟨⟨[10, 10, 10]⟩, 1, 2, 4⟩ : CosSquared ℚ).normSqd
      (fun i => if i = 0 then 1 / 2 else 0) (fun _ => 0) = 1 / 4 := by
    rw [CosSquared.normSqd_eq_sum]
    simp only [Box.dimension, List.length, List.range_succ, List.range_zero]
    have h : minimumImageComponent (10 : ℚ) 2⁻¹ = 2⁻¹ :=
      minimumImageComponent_of_mem (by norm_num) (by norm_num) (by norm_num)
    simp [minimumImageComponent_zero]
    rw [h]
    norm_num
  have h₀ : 0 < (⟨⟨[10, 10, 10]⟩, 1, 2, 4⟩ : CosSquared ℚ).normSqd
      (fun i => if i = 0 then 1 / 2 else 0) (fun _ => 0) := by rw [hn]; norm_num
  have h₁ : (⟨⟨[10, 10, 10]⟩, 1, 2, 4⟩ : CosSquared ℚ).normSqd
      (fun i => if i = 0 then 1 / 2 else 0) (fun _ => 0) < 1 := by rw [hn]; norm_num
  refine ⟨⟨h₀, h₁⟩, ?_⟩
  rw [(computePairEnergy_core ⟨id, id, fun x _ => x, 3⟩ _ 0 _ 0 (fun _ => 0) 1 _ 1 (fun _ => 0)
    h₀ h₁).1, hn]
  norm_num

/-- C3, counterexample. With the parameters of `cos_squarium` (energy 2.4, range 2) in a cubic
box of length 10, two particles at the same position `(1, 2, 3)` have `normSqd = 0 < 1`, so
`1.0 / normSqd` is evaluated with a zero divisor and no finite energy is returned. -/
theorem computePairEnergy_finite_counterexample :
    (⟨⟨[10, 10, 10]⟩, 2.4, 2, 4⟩ : CosSquared ℚ).sep (fun i => i + 1) (fun i => i + 1) =
      [0, 0, 0] ∧
    (⟨⟨[10, 10, 10]⟩, 2.4, 2, 4⟩ : CosSquared ℚ).normSqd (fun i => i + 1) (fun i => i + 1) < 1 ∧
    ¬ 0 < (⟨⟨[10, 10, 10]⟩, 2.4, 2, 4⟩ : CosSquared ℚ).normSqd (fun i => i + 1) (fun i => i + 1) ∧
    fdiv 1 ((⟨⟨[10, 10, 10]⟩, 2.4, 2, 4⟩ : CosSquared ℚ).normSqd
      (fun i => i + 1) (fun i => i + 1)) = none ∧
    computePairEnergy ⟨id, id, fun x _ => x, 3⟩ (⟨⟨[10, 10, 10]⟩, 2.4, 2, 4⟩ : CosSquared ℚ)
      0 (fun i => i + 1) 0 (fun _ => 0) 1 (fun i => i + 1) 0 (fun _ => 0) = none := by
  have hn := CosSquared.normSqd_self (⟨⟨[10, 10, 10]⟩, 2.4, 2, 4⟩ : CosSquared ℚ)
    (fun i => (i : ℚ) + 1)
  refine ⟨?_, ?_, ?_, ?_, ?_⟩
  · rw [CosSquared.sep_eq_map]
    simp [Box.dimension, List.range_succ, minimumImageComponent_zero]
  · rw [hn]; norm_num
  · rw [hn]; norm_num
  · rw [hn]; simp [fdiv]
  · simp [computePairEnergy, hn, fdiv]

/-- C3, amended. `CosSquared::computePairEnergy` does not guard the division `1.0 / normSqd`:
for every pair of input positions with `normSqd < 1`, whatever the types, the result is computed
from `1.0 / normSqd`; `normSqd` is never negative and the division is by zero exactly when
`normSqd = 0`; and for two positions whose minimum-image separation is the zero vector
`normSqd = 0 < 1`, so the division is by zero and no energy value is returned. -/
theorem computePairEnergy_division (lib : CMath α) (m : CosSquared α)
    (particle1 : Nat) (position1 : Nat → α) (type1 : Nat) (orientation1 : Nat → α)
    (particle2 : Nat) (position2 : Nat → α) (type2 : Nat) (orientation2 : Nat → α) :
    (m.normSqd position1 position2 < 1 →
      computePairEnergy lib m particle1 position1 type1 orientation1
          particle2 position2 type2 orientation2 =
        (fdiv 1 (m.normSqd position1 position2)).map fun r2Inv =>
          m.interactionEnergy * (((r2Inv * r2Inv * r2Inv) * (r2Inv * r2Inv * r2Inv)) -
            2 * (r2Inv * r2Inv * r2Inv) + 1)) ∧
    (0 ≤ m.normSqd position1 position2 ∧
      (fdiv 1 (m.normSqd position1 position2) = none ↔ m.normSqd position1 position2 = 0)) ∧
    (m.normSqd position1 position2 < 1 →
      (computePairEnergy lib m particle1 position1 type1 orientation1
          particle2 position2 type2 orientation2 = none ↔
        m.normSqd position1 position2 = 0)) ∧
    ((∀ s ∈ m.sep position1 position2, s = 0) →
      m.normSqd position1 position2 = 0 ∧ m.normSqd position1 position2 < 1 ∧
      fdiv 1 (m.normSqd position1 position2) = none ∧
      computePairEnergy lib m particle1 position1 type1 orientation1
        particle2 position2 type2 orientation2 = none) := by
  have hnn := m.normSqd_nonneg position1 position2
  have hpos := m.normSqd_pos_iff position1 position2
  refine ⟨?_, ⟨hnn, ?_⟩, ?_, ?_⟩
  · intro h₁
    simp only [computePairEnergy, h₁, if_true]
  · simp [fdiv]
  · intro h₁
    simp [computePairEnergy, h₁, fdiv]
  · intro hz
    have h0 : m.normSqd position1 position2 = 0 := by
      refine le_antisymm (not_lt.mp fun h => ?_) hnn
      obtain ⟨s, hs, hs'⟩ := hpos.mp h
      exact hs' (hz s hs)
    refine ⟨h0, by rw [h0]; exact zero_lt_one, by simp [fdiv, h0], ?_⟩
    simp [computePairEnergy, h0, fdiv]

/-- Witness of C3 (amended): in a cubic box of length 10, two particles one box length apart
along the first axis are periodic images of the same point; their minimum-image separation is
the zero vector and the division is by zero. -/
theorem computePairEnergy_division_witness :
    (∀ s ∈ (⟨⟨[10, 10, 10]⟩, 2.4, 2, 4⟩ : CosSquared ℚ).sep
      (fun i => if i = 0 then 10 else 0) (fun _ => 0), s = 0) ∧
    (⟨⟨[10, 10, 10]⟩, 2.4, 2, 4⟩ : CosSquared ℚ).normSqd
      (fun i => if i = 0 then 10 else 0) (fun _ => 0) = 0 ∧
    computePairEnergy ⟨id, id, fun x _ => x, 3⟩ (⟨⟨[10, 10, 10]⟩, 2.4, 2, 4⟩ : CosSquared ℚ)
      0 (fun i => if i = 0 then 10 else 0) 0 (fun _ => 0) 1 (fun _ => 0) 1 (fun _ => 0) =
      none := by
  have h10 : minimumImageComponent (10 : ℚ) 10 = 0 := by
    have h := minimumImageComponent_add_int_mul (10 : ℚ) 0 1
    simpa [minimumImageComponent_zero] using h
  have hz : ∀ s ∈ (⟨⟨[10, 10, 10]⟩, 2.4, 2, 4⟩ : CosSquared ℚ).sep
      (fun i => if i = 0 then 10 else 0) (fun _ => 0), s = 0 := by
    rw [CosSquared.sep_eq_map]
    simp only [Box.dimension, List.length, List.range_succ, List.range_zero]
    simp [minimumImageComponent_zero, h10]
  have h := (computePairEnergy_division ⟨id, id, fun x _ => x, 3⟩
    (⟨⟨[10, 10, 10]⟩, 2.4, 2, 4⟩ : CosSquared ℚ)
    0 (fun i => if i = 0 then 10 else 0) 0 (fun _ => 0) 1 (fun _ => 0) 1 (fun _ => 0)).2.2.2 hz
  exact ⟨hz, h.1, h.2.2.2⟩

/-- C6, counterexample. With `interactionEnergy = 0`, two particles at the same position do not
get the energy 0: `normSqd = 0`, the division `1.0 / normSqd` is by zero and the product
`interactionEnergy * (...)` is not a number. -/
theorem computePairEnergy_scale_counterexample :
    (⟨⟨[10, 10, 10]⟩, 0, 2, 4⟩ : CosSquared ℚ).interactionEnergy = 0 ∧
    (⟨⟨[10, 10, 10]⟩, 0, 2, 4⟩ : CosSquared ℚ).normSqd (fun _ => 5) (fun _ => 5) = 0 ∧
    computePairEnergy ⟨id, id, fun x _ => x, 3⟩ (⟨⟨[10, 10, 10]⟩, 0, 2, 4⟩ : CosSquared ℚ)
      0 (fun _ => 5) 0 (fun _ => 0) 1 (fun _ => 5) 0 (fun _ => 0) ≠ some 0 := by
  have hn := CosSquared.normSqd_self (⟨⟨[10, 10, 10]⟩, 0, 2, 4⟩ : CosSquared ℚ) (fun _ => 5)
  refine ⟨rfl, hn, ?_⟩
  simp [computePairEnergy, hn, fdiv]

/-- C6, amended. `interactionEnergy` is the energy scale of the potential: for all positions,
types and every factor `c`, the result of `CosSquared::computePairEnergy` with
`interactionEnergy = c*e` is `c` times the result with `interactionEnergy = e` (the result is
linear in `interactionEnergy` in every branch; where a division by zero leaves the call with `e`
without a value, the call with `c*e` has none either). It is not 0 on every input when
`interactionEnergy = 0`: for two particles at the same position `normSqd = 0`, the division
`1.0 / normSqd` is by zero and the call returns no value for every `interactionEnergy`, 0
included. -/
theorem computePairEnergy_scale (lib : CMath α) (box : Box α) (interactionRange : α)
    (squaredCutOffDistance : α) (c e : α)
    (particle1 : Nat) (position1 : Nat → α) (type1 : Nat) (orientation1 : Nat → α)
    (particle2 : Nat) (position2 : Nat → α) (type2 : Nat) (orientation2 : Nat → α) :
    computePairEnergy lib ⟨box, c * e, interactionRange, squaredCutOffDistance⟩
        particle1 position1 type1 orientation1 particle2 position2 type2 orientation2 =
      (computePairEnergy lib ⟨box, e, interactionRange, squaredCutOffDistance⟩
        particle1 position1 type1 orientation1 particle2 position2 type2 orientation2).map
        (fun E => c * E) ∧
    (CosSquared.normSqd ⟨box, e, interactionRange, squaredCutOffDistance⟩
        position1 position1 = 0 ∧
      computePairEnergy lib ⟨box, e, interactionRange, squaredCutOffDistance⟩
        particle1 position1 type1 orientation1 particle2 position1 type2 orientation2 = none ∧
      computePairEnergy lib ⟨box, 0, interactionRange, squaredCutOffDistance⟩
        particle1 position1 type1 orientation1 particle2 position1 type2 orientation2 =
        none) := by
  refine ⟨?_, CosSquared.normSqd_self _ _, ?_, ?_⟩
  · simp only [computePairEnergy, CosSquared.normSqd, CosSquared.sep, cosineterm]
    split_ifs <;> simp [Option.map_map, Function.comp_def] <;>
      (try (congr 1; funext x; ring))
  · simp [computePairEnergy, CosSquared.normSqd_self, fdiv]
  · simp [computePairEnergy, CosSquared.normSqd_self, fdiv]

/-- The part of C2 that the code satisfies: beyond the cut-off distance two particles of the
same type have pair energy 0. -/
theorem computePairEnergy_beyond_cutoff_like (lib : CMath α) (m : CosSquared α)
    (hR : 1 < m.interactionRange) (hcut : m.squaredCutOffDistance = m.interactionRange ^ 2)
    (particle1 : Nat) (position1 : Nat → α) (type : Nat) (orientation1 : Nat → α)
    (particle2 : Nat) (position2 : Nat → α) (orientation2 : Nat → α)
    (h : m.interactionRange ^ 2 ≤ m.normSqd position1 position2) :
    computePairEnergy lib m particle1 position1 type orientation1
      particle2 position2 type orientation2 = some 0 := by
  have h1 : ¬ m.normSqd position1 position2 < 1 := by nlinarith
  have h2 : ¬ m.normSqd position1 position2 < m.squaredCutOffDistance := by
    rw [hcut]; exact not_lt.mpr h
  simp [computePairEnergy, h1, h2]

/-- C2, the failing input evaluated. With the parameters of `cos_squarium`
(`interactionEnergy = 2.4`, `interactionRange = 2`, `squaredCutOffDistance = 4`) in a cubic box
of length 10, a particle of type 0 and a particle of type 1 at distance `5/2`, beyond the
cut-off distance 2 (`normSqd = 25/4 >= 4`), have the pair energy `-1.2`, not 0: for unlike
types the code compares `normSqd` with `squaredCutOffDistance*2`. -/
theorem computePairEnergy_beyond_cutoff_unlike :
    (⟨⟨[10, 10, 10]⟩, 2.4, 2, 4⟩ : CosSquared ℝ).squaredCutOffDistance =
      (⟨⟨[10, 10, 10]⟩, 2.4, 2, 4⟩ : CosSquared ℝ).interactionRange ^ 2 ∧
    (⟨⟨[10, 10, 10]⟩, 2.4, 2, 4⟩ : CosSquared ℝ).normSqd
      (fun i => if i = 0 then 5 / 2 else 0) (fun _ => 0) = 25 / 4 ∧
    (⟨⟨[10, 10, 10]⟩, 2.4, 2, 4⟩ : CosSquared ℝ).interactionRange ^ 2 ≤
      (⟨⟨[10, 10, 10]⟩, 2.4, 2, 4⟩ : CosSquared ℝ).normSqd
        (fun i => if i = 0 then 5 / 2 else 0) (fun _ => 0) ∧
    computePairEnergy ⟨Real.sqrt, Real.cos, Real.rpow, Real.pi⟩
      (⟨⟨[10, 10, 10]⟩, 2.4, 2, 4⟩ : CosSquared ℝ)
      0 (fun i => if i = 0 then 5 / 2 else 0) 0 (fun _ => 0) 1 (fun _ => 0) 1 (fun _ => 0) =
      some (-1.2) := by
  have hn : (⟨⟨[10, 10, 10]⟩, 2.4, 2, 4⟩ : CosSquared ℝ).normSqd
      (fun i => if i = 0 then 5 / 2 else 0) (fun _ => 0) = 25 / 4 := by
    rw [CosSquared.normSqd_eq_sum]
    simp only [Box.dimension, List.length, List.range_succ, List.range_zero]
    have h : minimumImageComponent (10 : ℝ) (5 / 2) = 5 / 2 :=
      minimumImageComponent_of_mem (by norm_num) (by norm_num) (by norm_num)
    simp [minimumImageComponent_zero]
    rw [h]
    norm_num
  have hs : Real.sqrt (25 / 4) = 5 / 2 := by
    rw [show (25 / 4 : ℝ) = (5 / 2) ^ 2 by norm_num]
    exact Real.sqrt_sq (by norm_num)
  have hc : Real.cos (Real.pi * (5 / 2 - 1) / (2 * (2 - 1))) = -(Real.sqrt 2 / 2) := by
    rw [show Real.pi * (5 / 2 - 1) / (2 * (2 - 1)) = Real.pi - Real.pi / 4 by ring,
      Real.cos_pi_sub, Real.cos_pi_div_four]
  have h2 : Real.sqrt 2 * Real.sqrt 2 = 2 := Real.mul_self_sqrt (by norm_num)
  refine ⟨by norm_num, hn, by rw [hn]; norm_num, ?_⟩
  have e1 : ¬ ((25 / 4 : ℝ) < 1) := by norm_num
  have e2 : ¬ ((25 / 4 : ℝ) < 4) := by norm_num
  have e3 : (25 / 4 : ℝ) < 4 * 2 := by norm_num
  have e4 : (2 * (2 - 1) : ℝ) ≠ 0 := by norm_num
  simp only [computePairEnergy, hn, e1, e2, e3, if_false, false_and, true_and, cosineterm, fdiv,
    e4, hs, hc, Option.map_some', ne_eq, Nat.zero_ne_one, not_false_eq_true, if_true]
  congr 1
  linear_combination (-6 / 10 : ℝ) * h2

/-- C7. The attractive part is the cosine-squared well with sigma = 1. For `interactionRange >
1` and `squaredCutOffDistance = interactionRange^2`, and for every pair of type-0 particles
whose minimum-image distance `r = sqrt(normSqd)` satisfies `1 <= r < interactionRange`,
`CosSquared::computePairEnergy` returns
`-interactionEnergy * cos(pi*(r-1)/(2*(interactionRange-1)))^2`; for `interactionEnergy >= 0`
this lies in `[-interactionEnergy, 0]`; it equals `-interactionEnergy` at `r = 1`; and it tends
to 0 as `r` tends to `interactionRange`: for every `ε > 0` there is `δ > 0` such that every such
pair with `interactionRange - δ < r` has an energy of absolute value below `ε`. -/
theorem computePairEnergy_well (m : CosSquared ℝ) (hR : 1 < m.interactionRange)
    (hcut : m.squaredCutOffDistance = m.interactionRange ^ 2) :
    (∀ (particle1 : Nat) (position1 orientation1 : Nat → ℝ)
        (particle2 : Nat) (position2 orientation2 : Nat → ℝ),
      1 ≤ Real.sqrt (m.normSqd position1 position2) →
      Real.sqrt (m.normSqd position1 position2) < m.interactionRange →
        computePairEnergy ⟨Real.sqrt, Real.cos, Real.rpow, Real.pi⟩ m
            particle1 position1 0 orientation1 particle2 position2 0 orientation2 =
          some (-m.interactionEnergy *
            Real.cos (Real.pi * (Real.sqrt (m.normSqd position1 position2) - 1) /
              (2 * (m.interactionRange - 1))) ^ 2) ∧
        (0 ≤ m.interactionEnergy →
          -m.interactionEnergy ≤ -m.interactionEnergy *
            Real.cos (Real.pi * (Real.sqrt (m.normSqd position1 position2) - 1) /
              (2 * (m.interactionRange - 1))) ^ 2 ∧
          -m.interactionEnergy *
            Real.cos (Real.pi * (Real.sqrt (m.normSqd position1 position2) - 1) /
              (2 * (m.interactionRange - 1))) ^ 2 ≤ 0) ∧
        (Real.sqrt (m.normSqd position1 position2) = 1 →
          computePairEnergy ⟨Real.sqrt, Real.cos, Real.rpow, Real.pi⟩ m
            particle1 position1 0 orientation1 particle2 position2 0 orientation2 =
          some (-m.interactionEnergy))) ∧
    (∀ ε : ℝ, 0 < ε → ∃ δ : ℝ, 0 < δ ∧
      ∀ (particle1 : Nat) (position1 orientation1 : Nat → ℝ)
        (particle2 : Nat) (position2 orientation2 : Nat → ℝ),
      1 ≤ Real.sqrt (m.normSqd position1 position2) →
      m.interactionRange - δ < Real.sqrt (m.normSqd position1 position2) →
      Real.sqrt (m.normSqd position1 position2) < m.interactionRange →
        ∃ E : ℝ, computePairEnergy ⟨Real.sqrt, Real.cos, Real.rpow, Real.pi⟩ m
            particle1 position1 0 orientation1 particle2 position2 0 orientation2 = some E ∧
          |E| < ε) := by
  constructor
  · intro particle1 position1 orientation1 particle2 position2 orientation2 h₁ h₂
    have hE := m.computePairEnergy_type0 hR hcut particle1 position1 orientation1
      particle2 position2 orientation2 h₁ h₂
    refine ⟨hE, ?_, ?_⟩
    · intro he
      have hc0 := sq_nonneg (Real.cos (Real.pi * (Real.sqrt (m.normSqd position1 position2) - 1) /
        (2 * (m.interactionRange - 1))))
      have hc1 := Real.cos_sq_le_one (Real.pi * (Real.sqrt (m.normSqd position1 position2) - 1) /
        (2 * (m.interactionRange - 1)))
      constructor <;> nlinarith
    · intro hr
      rw [hE, hr]
      simp
  · intro ε hε
    have hcont : Continuous fun r : ℝ => -m.interactionEnergy *
        Real.cos (Real.pi * (r - 1) / (2 * (m.interactionRange - 1))) ^ 2 := by
      fun_prop
    have hlim : -m.interactionEnergy *
        Real.cos (Real.pi * (m.interactionRange - 1) / (2 * (m.interactionRange - 1))) ^ 2
        = 0 := by
      have hne : m.interactionRange - 1 ≠ 0 := by linarith
      have : Real.pi * (m.interactionRange - 1) / (2 * (m.interactionRange - 1)) =
          Real.pi / 2 := by
        field_simp
        ring
      simp only [this, Real.cos_pi_div_two]
      ring
    obtain ⟨δ, hδ, h⟩ := Metric.continuous_iff.mp hcont m.interactionRange ε hε
    refine ⟨δ, hδ, ?_⟩
    intro particle1 position1 orientation1 particle2 position2 orientation2 h₁ hl h₂
    refine ⟨_, m.computePairEnergy_type0 hR hcut particle1 position1 orientation1
      particle2 position2 orientation2 h₁ h₂, ?_⟩
    have hd : dist (Real.sqrt (m.normSqd position1 position2)) m.interactionRange < δ := by
      rw [Real.dist_eq, abs_lt]
      constructor <;> linarith
    have := h _ hd
    rw [hlim, Real.dist_eq, sub_zero] at this
    exact this

/-- Witness of C7: the model of `cos_squarium` in a cubic box of length 10, two type-0
particles at distance 1 along the first axis. -/
theorem computePairEnergy_well_witness :
    (1 : ℝ) < (⟨⟨[10, 10, 10]⟩, 2.4, 2, 4⟩ : CosSquared ℝ).interactionRange ∧
    (⟨⟨[10, 10, 10]⟩, 2.4, 2, 4⟩ : CosSquared ℝ).squaredCutOffDistance =
      (⟨⟨[10, 10, 10]⟩, 2.4, 2, 4⟩ : CosSquared ℝ).interactionRange ^ 2 ∧
    Real.sqrt ((⟨⟨[10, 10, 10]⟩, 2.4, 2, 4⟩ : CosSquared ℝ).normSqd
      (fun i => if i = 0 then 1 else 0) (fun _ => 0)) = 1 ∧
    computePairEnergy ⟨Real.sqrt, Real.cos, Real.rpow, Real.pi⟩
      (⟨⟨[10, 10, 10]⟩, 2.4, 2, 4⟩ : CosSquared ℝ)
      0 (fun i => if i = 0 then 1 else 0) 0 (fun _ => 0) 1 (fun _ => 0) 0 (fun _ => 0) =
      some (-2.4) := by
  have hn : (⟨⟨[10, 10, 10]⟩, 2.4, 2, 4⟩ : CosSquared ℝ).normSqd
      (fun i => if i = 0 then 1 else 0) (fun _ => 0) = 1 := by
    rw [CosSquared.normSqd_eq_sum]
    simp only [Box.dimension, List.length, List.range_succ, List.range_zero]
    have h : minimumImageComponent (10 : ℝ) 1 = 1 :=
      minimumImageComponent_of_mem (by norm_num) (by norm_num) (by norm_num)
    simp [minimumImageComponent_zero]
    rw [h]
    norm_num
  have hs : Real.sqrt ((⟨⟨[10, 10, 10]⟩, 2.4, 2, 4⟩ : CosSquared ℝ).normSqd
      (fun i => if i = 0 then 1 else 0) (fun _ => 0)) = 1 := by
    rw [hn, Real.sqrt_one]
  have hR : (1 : ℝ) < (⟨⟨[10, 10, 10]⟩, 2.4, 2, 4⟩ : CosSquared ℝ).interactionRange := by
    norm_num
  have hcut : (⟨⟨[10, 10, 10]⟩, 2.4, 2, 4⟩ : CosSquared ℝ).squaredCutOffDistance =
      (⟨⟨[10, 10, 10]⟩, 2.4, 2, 4⟩ : CosSquared ℝ).interactionRange ^ 2 := by
    norm_num
  exact ⟨hR, hcut, hs,
    ((computePairEnergy_well _ hR hcut).1 0 _ (fun _ => 0) 1 _ (fun _ => 0)
      (by rw [hs]) (by rw [hs]; exact hR)).2.2 hs⟩

/-- C8, the sweep report evaluated. In `cos_squarium` each iteration of the main loop runs
`100*nParticles = 100000` elementary moves, i.e. 100 sweeps: the report of iteration `i` prints
`(i+1)*1000` sweeps when `(i+1)*100000` moves have been executed, which is `(i+1)*100`
sweeps. After the first iteration it prints 1000 sweeps after 100 sweeps. In
`lennard_jonesium` an iteration runs `1000*nParticles` moves and the report is right. -/
theorem cos_squarium_sweeps_report :
    (cos_squarium.simulation ⟨0⟩).2 =
      (List.range 1000).map (fun i => ⟨(i + 1) * 1000, (i + 1) * 100000⟩) ∧
    (cos_squarium.simulation ⟨0⟩).2.head? = some ⟨1000, 100000⟩ ∧
    100000 / cos_squarium.nParticles = 100 ∧
    (lennard_jonesium.simulation ⟨0⟩).2 =
      (List.range 1000).map
        (fun i => ⟨(i + 1) * 1000, (i + 1) * 1000 * lennard_jonesium.nParticles⟩) := by
  have h : (cos_squarium.simulation ⟨0⟩).2 =
      (List.range 1000).map (fun i => ⟨(i + 1) * 1000, (i + 1) * 100000⟩) := by
    rw [cos_squarium.simulation, cos_squarium.foldl_iteration_cos]
    simp [cos_squarium.nParticles]
  refine ⟨h, ?_, by decide, ?_⟩
  · rw [h, List.head?_map, List.head?_range]
    rfl
  · rw [lennard_jonesium.simulation, lennard_jonesium.foldl_iteration_lj]
    simp [mul_assoc]

/-- C9. Both demo drivers build a valid configuration for the minimum-image convention: with
`baseLength = (nParticles*pi/(6*density))^(1/3)` for dimension 3 (`nParticles = 1000`; density
0.01 and `interactionRange = 2` in `cos_squarium`, density 0.05 and `interactionRange = 2.5` in
`lennard_jonesium`), the box has three axes of length `baseLength`, `baseLength` is positive
and `interactionRange <= baseLength/2`. -/
theorem demo_boxes_valid :
    (cos_squarium.baseLength ⟨Real.sqrt, Real.cos, Real.rpow, Real.pi⟩ =
        Real.rpow ((1000 * Real.pi) / (6 * 0.01)) (1 / 3) ∧
      cos_squarium.boxSize ⟨Real.sqrt, Real.cos, Real.rpow, Real.pi⟩ =
        List.replicate 3 (cos_squarium.baseLength ⟨Real.sqrt, Real.cos, Real.rpow, Real.pi⟩) ∧
      0 < cos_squarium.baseLength ⟨Real.sqrt, Real.cos, Real.rpow, Real.pi⟩ ∧
      cos_squarium.interactionRange ℝ ≤
        cos_squarium.baseLength ⟨Real.sqrt, Real.cos, Real.rpow, Real.pi⟩ / 2) ∧
    (lennard_jonesium.baseLength ⟨Real.sqrt, Real.cos, Real.rpow, Real.pi⟩ =
        Real.rpow ((1000 * Real.pi) / (6 * 0.05)) (1 / 3) ∧
      lennard_jonesium.boxSize ⟨Real.sqrt, Real.cos, Real.rpow, Real.pi⟩ =
        List.replicate 3 (lennard_jonesium.baseLength ⟨Real.sqrt, Real.cos, Real.rpow, Real.pi⟩) ∧
      0 < lennard_jonesium.baseLength ⟨Real.sqrt, Real.cos, Real.rpow, Real.pi⟩ ∧
      lennard_jonesium.interactionRange ℝ ≤
        lennard_jonesium.baseLength ⟨Real.sqrt, Real.cos, Real.rpow, Real.pi⟩ / 2) := by
  have hpi := Real.pi_gt_three
  have hc : cos_squarium.baseLength ⟨Real.sqrt, Real.cos, Real.rpow, Real.pi⟩ =
      Real.rpow ((1000 * Real.pi) / (6 * 0.01)) (1 / 3) := by
    simp [cos_squarium.baseLength, cos_squarium.dimension, cos_squarium.nParticles,
      cos_squarium.density]
    norm_num
  have hl : lennard_jonesium.baseLength ⟨Real.sqrt, Real.cos, Real.rpow, Real.pi⟩ =
      Real.rpow ((1000 * Real.pi) / (6 * 0.05)) (1 / 3) := by
    simp [lennard_jonesium.baseLength, lennard_jonesium.dimension, lennard_jonesium.nParticles,
      lennard_jonesium.density]
    norm_num
  have hc4 : (4 : ℝ) ≤ cos_squarium.baseLength ⟨Real.sqrt, Real.cos, Real.rpow, Real.pi⟩ := by
    rw [hc]
    apply le_rpow_third (by norm_num)
    rw [le_div_iff₀ (by norm_num)]
    norm_num
    linarith
  have hl5 : (5 : ℝ) ≤ lennard_jonesium.baseLength ⟨Real.sqrt, Real.cos, Real.rpow, Real.pi⟩ := by
    rw [hl]
    apply le_rpow_third (by norm_num)
    rw [le_div_iff₀ (by norm_num)]
    norm_num
    linarith
  refine ⟨⟨hc, ?_, by linarith, ?_⟩, ⟨hl, ?_, by linarith, ?_⟩⟩
  · simp [cos_squarium.boxSize, cos_squarium.dimension, List.range_succ, List.replicate]
  · simp only [cos_squarium.interactionRange]; linarith
  · simp [lennard_jonesium.boxSize, lennard_jonesium.dimension, List.range_succ, List.replicate]
  · simp only [lennard_jonesium.interactionRange]; norm_num; linarith

end Claims

end VmmcSpindle
